import Mathlib

/-!
Formal model of the grammy-skills example handlers.

JavaScript strings are modelled as Lean `String`/`List Char`, and
JavaScript numbers as exact rationals (`ℚ`): the model abstracts from
IEEE-754 rounding, and the non-finite values (`NaN` results of
`parseFloat`, and the `Infinity` literals that the snippets never
produce on purpose) are represented by `none`.  `undefined`-able values
are `Option`s, and each handler is modelled as a pure function from its
inputs to the reply text (and, where relevant, the updated state) it
produces.  Whitespace and letter-case handling are restricted to ASCII.
-/

namespace GrammySkills

/-! ### JavaScript string primitives -/

/-- The whitespace class used by the snippets' `trim` and `split(/\s+/)`
calls, restricted to ASCII whitespace. -/
def isWsChar (c : Char) : Bool :=
  c = ' ' || c = '\t' || c = '\n' || c = '\r' || c = '\x0b' || c = '\x0c'

/-- `String.prototype.trim` on the underlying character list. -/
def trimChars (cs : List Char) : List Char :=
  ((cs.dropWhile isWsChar).reverse.dropWhile isWsChar).reverse

/-- `String.prototype.trim`. -/
def jsTrim (s : String) : String := String.mk (trimChars s.data)

/-- Tokeniser behind the model of `split(/\s+/)`: `acc` holds the
characters of the token currently being read, in reverse. -/
def splitWsAux : List Char → List Char → List String
  | [], acc => if acc.isEmpty then [] else [String.mk acc.reverse]
  | c :: cs, acc =>
    if isWsChar c then
      if acc.isEmpty then splitWsAux cs []
      else String.mk acc.reverse :: splitWsAux cs []
    else splitWsAux cs (c :: acc)

/-- Model of `s.split(/\s+/)` as the snippets use it (always on an
already trimmed string): the empty string yields `[""]`, any other input
yields its whitespace-separated tokens. -/
def jsSplitWs (s : String) : List String :=
  if s = "" then [""] else splitWsAux s.data []

/-- `match.trim().split(/\s+/)`, the argument-tokenising pipeline shared
by the command handlers. -/
def wsTokens (s : String) : List String := jsSplitWs (jsTrim s)

/-- `String.prototype.toLowerCase` on one character (ASCII range). -/
def lowerChar (c : Char) : Char :=
  if 'A' ≤ c ∧ c ≤ 'Z' then Char.ofNat (c.toNat + 32) else c

/-- `String.prototype.toLowerCase`, restricted to ASCII letters. -/
def lowerStr (s : String) : String := String.mk (s.data.map lowerChar)

/-! ### JavaScript number parsing and printing -/

/-- Numeric value of a decimal digit character. -/
def digitVal (c : Char) : Nat := c.toNat - 48

/-- Split a leading run of decimal digits off a character list. -/
def readDigits : List Char → List Nat × List Char
  | [] => ([], [])
  | c :: cs =>
    if c.isDigit then
      let p := readDigits cs
      (digitVal c :: p.1, p.2)
    else ([], c :: cs)

/-- The number denoted by a list of decimal digits. -/
def digitsToNat (ds : List Nat) : Nat := ds.foldl (fun a d => a * 10 + d) 0

/-- An optional leading sign: whether it was `-`, and the rest. -/
def readSign : List Char → Bool × List Char
  | [] => (false, [])
  | c :: cs =>
    if c = '-' then (true, cs)
    else if c = '+' then (false, cs)
    else (false, c :: cs)

/-- The optional exponent part of a decimal literal; an absent or
malformed exponent contributes 0, since `parseFloat` keeps the longest
valid numeric prefix. -/
def readExp (cs : List Char) : Int :=
  match cs with
  | [] => 0
  | c :: rest =>
    if c = 'e' ∨ c = 'E' then
      let sp := readSign rest
      let dp := readDigits sp.2
      if dp.1.isEmpty then 0
      else if sp.1 then -(digitsToNat dp.1 : Int) else (digitsToNat dp.1 : Int)
    else 0

/-- Scale a rational by an integer power of ten. -/
def scalePow10 (q : ℚ) (e : Int) : ℚ :=
  if 0 ≤ e then q * (10 : ℚ) ^ e.toNat else q / (10 : ℚ) ^ (-e).toNat

/-- Model of `parseFloat` on a character list: the longest prefix of the
form `[+|-] digits [. digits] [(e|E) [+|-] digits]` gives the value;
`none` models `NaN` (no numeric prefix at all). -/
def parseFloatChars (cs : List Char) : Option ℚ :=
  let sp := readSign cs
  let ip := readDigits sp.2
  let fp : List Nat × List Char :=
    match ip.2 with
    | [] => ([], [])
    | c :: rest => if c = '.' then readDigits rest else ([], c :: rest)
  if ip.1.isEmpty ∧ fp.1.isEmpty then none
  else
    let mantissa : ℚ :=
      (digitsToNat ip.1 : ℚ) + (digitsToNat fp.1 : ℚ) / (10 : ℚ) ^ fp.1.length
    let v := scalePow10 mantissa (readExp fp.2)
    some (if sp.1 then -v else v)

/-- Model of `parseFloat`, with `none` for `NaN`. -/
def jsParseFloat (s : String) : Option ℚ := parseFloatChars s.data

/-- Rendering of a model number inside a reply (the model's stand-in for
JavaScript number-to-string; integral values print as integers). -/
def numToString (q : ℚ) : String :=
  if q.den = 1 then toString q.num
  else toString q.num ++ "/" ++ toString q.den

/-! ### The calc and divide command handlers -/

/-- The `/calc` usage message. -/
def calcUsage : String :=
  "Usage: /calc <number> <operator> <number>\nExample: /calc 5 + 3"

/-- The formatted result line of `/calc`. -/
def calcResultMsg (n1 : ℚ) (op : String) (n2 : ℚ) (r : ℚ) : String :=
  numToString n1 ++ " " ++ op ++ " " ++ numToString n2 ++ " = " ++ numToString r

/-- The unknown-operator reply of `/calc`. -/
def unknownOperatorMsg (op : String) : String :=
  "Unknown operator: " ++ op ++ "\nSupported operators: + - * /"

/-- `handleCalcCommand` from `src/core/function/calc_command.ts`: `m` is
`ctx.match`, the result is the single reply text the handler sends. -/
def handleCalcCommand (m : Option String) : String :=
  match m.map wsTokens with
  | none => calcUsage
  | some args =>
    match args with
    | [num1Str, operator, num2Str] =>
      match jsParseFloat num1Str, jsParseFloat num2Str with
      | some num1, some num2 =>
        match operator with
        | "+" => calcResultMsg num1 operator num2 (num1 + num2)
        | "-" => calcResultMsg num1 operator num2 (num1 - num2)
        | "*" => calcResultMsg num1 operator num2 (num1 * num2)
        | "/" =>
          if num2 = 0 then "Cannot divide by zero."
          else calcResultMsg num1 operator num2 (num1 / num2)
        | _ => unknownOperatorMsg operator
      | _, _ => "Both operands must be valid numbers."
    | _ => calcUsage

/-- The promise-returning `handleCalcCommand` variant from
`src/unnamed/part_006`, translated independently of the `async` one. -/
def handleCalcCommandPromise (m : Option String) : String :=
  match m.map wsTokens with
  | none => calcUsage
  | some args =>
    match args with
    | [num1Str, operator, num2Str] =>
      match jsParseFloat num1Str, jsParseFloat num2Str with
      | some num1, some num2 =>
        match operator with
        | "+" => calcResultMsg num1 operator num2 (num1 + num2)
        | "-" => calcResultMsg num1 operator num2 (num1 - num2)
        | "*" => calcResultMsg num1 operator num2 (num1 * num2)
        | "/" =>
          if num2 = 0 then "Cannot divide by zero."
          else calcResultMsg num1 operator num2 (num1 / num2)
        | _ => unknownOperatorMsg operator
      | _, _ => "Both operands must be valid numbers."
    | _ => calcUsage

/-- The `/divide` usage message. -/
def divideUsage : String := "Usage: /divide <number> <number>"

/-- `handleDivideCommand` from `src/core/error_handling.ts` (`m` is
`ctx.match?.toString()`). -/
def handleDivideCommand (m : Option String) : String :=
  match m.map wsTokens with
  | none => divideUsage
  | some args =>
    match args with
    | [num1Str, num2Str] =>
      match jsParseFloat num1Str, jsParseFloat num2Str with
      | some num1, some num2 =>
        if num2 = 0 then "Error: Cannot divide by zero."
        else numToString num1 ++ " ÷ " ++ numToString num2 ++ " = " ++
          numToString (num1 / num2)
      | _, _ => "Both arguments must be valid numbers."
    | _ => divideUsage

/-! ### The admin subcommand handler -/

/-- The `/admin help` text. -/
def adminHelpMsg : String :=
  "Admin Commands:\n/admin start - Start services\n/admin stop - Stop services\n/admin status - Check status\n/admin help - Show this help"

/-- The unknown-subcommand reply (note that the source interpolates the
already lowercased `subcommand`). -/
def unknownSubcommandMsg (sub : String) : String :=
  "Unknown subcommand: " ++ sub ++ "\nUse /admin help for available commands."

/-- `args[0]?.toLowerCase()` of `handleAdminCommand`: the first token of
`ctx.match?.trim().split(/\s+/) ?? []`, lowercased when present. -/
def adminSubcommand (m : Option String) : Option String :=
  ((m.map wsTokens).getD []).head?.map lowerStr

/-- `handleAdminCommand` from `src/unnamed/part_007` (the `part_006`
version has the same body): dispatch on `args[0]?.toLowerCase()` with
`help` shared between the `"help"` token and an undefined `args[0]`. -/
def handleAdminCommand (m : Option String) : String :=
  match adminSubcommand m with
  | some "start" => "Starting admin services..."
  | some "stop" => "Stopping admin services..."
  | some "status" => "Admin services are running."
  | some "help" => adminHelpMsg
  | none => adminHelpMsg
  | some other => unknownSubcommandMsg other

/-! ### Middleware models -/

/-- The rejection reply of the authentication middleware. -/
def notAuthorizedMsg : String := "You are not authorized to use this bot."

/-- Trace of one middleware run: whether `next()` was invoked, and the
reply texts sent, in order. -/
structure AuthTrace where
  calledNext : Bool
  replies : List String
deriving DecidableEq

/-- `authenticationMiddleware` from `src/unnamed/part_001`: `allowed` is
the allow-list (a JavaScript `Set`), `fromId` is `ctx.from?.id`.  The
source guard is `!userId || !allowedUserIds.has(userId)`, where `!userId`
is JavaScript truthiness: both `undefined` and `0` are falsy. -/
def authenticationMiddleware (allowed : List Nat) (fromId : Option Nat) :
    AuthTrace :=
  match fromId with
  | none => { calledNext := false, replies := [notAuthorizedMsg] }
  | some uid =>
    if uid = 0 ∨ ¬ uid ∈ allowed then
      { calledNext := false, replies := [notAuthorizedMsg] }
    else
      { calledNext := true, replies := [] }

/-- The apology reply of the error boundary. -/
def apologyMsg : String :=
  "An error occurred while processing your request. Our team has been notified."

/-- Trace of one run of the error-boundary middleware: the error it lets
propagate (if any, identified by a numeric id), the reply texts it
attempts, and the number of `console.error` logs it emits. -/
structure BoundaryTrace where
  propagated : Option Nat
  replies : List String
  errorLogs : Nat
deriving DecidableEq

/-- `errorBoundary` from `src/core/error_handling.ts` (the
`src/unnamed/part_004` copy is identical): `nextOutcome` is the outcome
of `await next()` and `replyOutcome` the outcome the apology `ctx.reply`
would have, errors being identified by numeric ids. -/
def errorBoundary (nextOutcome : Except Nat Unit)
    (replyOutcome : Except Nat Unit) : BoundaryTrace :=
  match nextOutcome with
  | .ok _ => { propagated := none, replies := [], errorLogs := 0 }
  | .error _ =>
    match replyOutcome with
    | .ok _ => { propagated := none, replies := [apologyMsg], errorLogs := 1 }
    | .error _ =>
      { propagated := none, replies := [apologyMsg], errorLogs := 2 }

/-! ### The retry helper -/

/-- The two error classes `sendWithRetry` distinguishes: `HttpError`
instances and everything else. -/
inductive JsErrorKind where
  | http
  | other
deriving DecidableEq

/-- An error value: its class and an identity. -/
structure JsError where
  kind : JsErrorKind
  id : Nat
deriving DecidableEq

/-- Outcome of one invocation of the retried operation `fn`. -/
inductive CallOutcome where
  | ok
  | err (e : JsError)
deriving DecidableEq

/-- Result of a `sendWithRetry` run, recording the total number of
invocations of `fn` the run made. -/
inductive RetryResult where
  | success (calls : Nat)
  | thrown (e : JsError) (calls : Nat)
  | thrownUndefined (calls : Nat)
deriving DecidableEq

/-- The number of invocations of `fn` a run made. -/
def RetryResult.calls : RetryResult → Nat
  | .success c => c
  | .thrown _ c => c
  | .thrownUndefined c => c

/-- The loop of `sendWithRetry` from `src/core/error_handling.ts`:
`fn attempt` is the outcome of the `attempt`-th invocation, `fuel` is the
number of loop iterations still allowed (`maxRetries + 1 - attempt`), and
`lastError` is the `lastError` variable.  When the loop is exhausted the
function throws `lastError` (`undefined` if no attempt ever ran). -/
def retryGo (fn : Nat → CallOutcome) (maxRetries : Nat) :
    Nat → Option JsError → Nat → RetryResult
  | attempt, lastError, 0 =>
    (match lastError with
     | some e => .thrown e (attempt - 1)
     | none => .thrownUndefined (attempt - 1))
  | attempt, _lastError, fuel + 1 =>
    match fn attempt with
    | .ok => .success attempt
    | .err e =>
      if e.kind = .http ∧ attempt < maxRetries then
        retryGo fn maxRetries (attempt + 1) (some e) fuel
      else .thrown e attempt

/-- `sendWithRetry` from `src/core/error_handling.ts`: run the loop for
attempts `1, …, maxRetries`. -/
def sendWithRetry (fn : Nat → CallOutcome) (maxRetries : Nat) : RetryResult :=
  retryGo fn maxRetries 1 none maxRetries

/-! ### The stateful feature (per-user message counter) -/

/-- A JavaScript `Map` with `Nat` keys, as an association list
(`set` overwrites in place, or appends for a fresh key). -/
def alistGet {α : Type} (m : List (Nat × α)) (k : Nat) : Option α :=
  (m.find? (fun p => p.1 == k)).map Prod.snd

/-- `Map.prototype.set`. -/
def alistSet {α : Type} : List (Nat × α) → Nat → α → List (Nat × α)
  | [], k, v => [(k, v)]
  | p :: rest, k, v =>
    if p.1 = k then (k, v) :: rest else p :: alistSet rest k v

/-- A message update as the stateful feature sees it: the chat it was
delivered in and `ctx.from?.id`. -/
structure MsgUpdate where
  chatId : Nat
  fromId : Option Nat
deriving DecidableEq

/-- The counting middleware inside `createStatefulFeature`
(`src/core/bot_composition.ts`): `if (userId)` is truthiness, so a
message with user id `0` or no sender is not counted; the chat id is
never consulted. -/
def statefulStep (m : List (Nat × Nat)) (u : MsgUpdate) : List (Nat × Nat) :=
  match u.fromId with
  | some uid =>
    if uid ≠ 0 then alistSet m uid ((alistGet m uid).getD 0 + 1) else m
  | none => m

/-- The `messageCount` map after a sequence of message updates. -/
def processUpdates (l : List MsgUpdate) : List (Nat × Nat) :=
  l.foldl statefulStep []

/-- The `/mycount` handler inside `createStatefulFeature`. -/
def myCountReply (m : List (Nat × Nat)) (fromId : Option Nat) : String :=
  match fromId with
  | none => "User ID not available."
  | some uid =>
    if uid = 0 then "User ID not available."
    else "You've sent " ++ toString ((alistGet m uid).getD 0) ++ " messages."

/-! ### The session example -/

/-- The `SessionData` record of `src/core/sessions/mod.ts`. -/
structure SessionData where
  visits : Nat
  notes : List String
deriving DecidableEq

/-- `initialSession` from `src/core/sessions/mod.ts`. -/
def initialSession : SessionData := { visits := 0, notes := [] }

/-- The `/start` handler body of the session example: it increments
`session.visits` and returns the updated session and the reply text. -/
def handleStartSession (s : SessionData) : SessionData × String :=
  let s1 : SessionData := { s with visits := s.visits + 1 }
  let visitText :=
    if s1.visits = 1 then "This is your first session."
    else "You have started the bot " ++ toString s1.visits ++ " times."
  (s1, "Session middleware example ready.\n" ++ visitText)

/-- The `/note` usage message. -/
def noteUsageMsg : String := "Usage: /note <text to remember>"

/-- The `/note` handler body: `m` is `ctx.match`; the `!note` guard is
truthiness, rejecting an absent match and a match that trims to the
empty string. -/
def handleNoteSession (m : Option String) (s : SessionData) :
    SessionData × String :=
  match m.map jsTrim with
  | none => (s, noteUsageMsg)
  | some note =>
    if note = "" then (s, noteUsageMsg)
    else
      let s1 : SessionData := { s with notes := s.notes ++ [note] }
      (s1, "Stored note #" ++ toString s1.notes.length ++ ".")

/-- The framework's session middleware, as the spec describes it: a
per-chat-key store whose record is created from `initialSession` on
first access. -/
def storeGet (st : List (Nat × SessionData)) (c : Nat) : SessionData :=
  (alistGet st c).getD initialSession

/-- One `/start` command processed for chat `c`: read (or create) the
session, run the handler, write the session back. -/
def processStart (st : List (Nat × SessionData)) (c : Nat) :
    List (Nat × SessionData) × String :=
  let r := handleStartSession (storeGet st c)
  (alistSet st c r.1, r.2)

/-- Run a sequence of `/start` commands (given by their chat ids),
collecting the replies in order. -/
def runStarts (st : List (Nat × SessionData)) : List Nat → List String
  | [] => []
  | c :: rest =>
    let r := processStart st c
    r.2 :: runStarts r.1 rest

/-- The session store after a sequence of `/start` commands. -/
def foldStarts (st : List (Nat × SessionData)) (l : List Nat) :
    List (Nat × SessionData) :=
  l.foldl (fun acc c => (processStart acc c).1) st

/-- The `/start` reply as a function of the visit count it reports. -/
def startReplyText (n : Nat) : String :=
  "Session middleware example ready.\n" ++
    (if n = 1 then "This is your first session."
     else "You have started the bot " ++ toString n ++ " times.")

/-! ### Auxiliary notions for the tokenisation lemmas -/

/-- `trim` of the right end only. -/
def trimRightChars (cs : List Char) : List Char :=
  (cs.reverse.dropWhile isWsChar).reverse

/-- A character list that is empty or begins with whitespace: the shape
of what may legally follow a first token. -/
def startsWsOrEmpty : List Char → Bool
  | [] => true
  | c :: _ => isWsChar c

/-- The tokens contributed by everything after the first token and its
separating whitespace character. -/
def restToks : List Char → List String
  | [] => []
  | _ :: rs => splitWsAux rs []

/-! ## Helper lemmas about the JavaScript `Map` model -/

theorem alistGet_set_self {α : Type} (m : List (Nat × α)) (k : Nat) (v : α) :
    alistGet (alistSet m k v) k = some v := by
  induction m with
  | nil => simp [alistSet, alistGet]
  | cons p rest ih =>
    simp only [alistSet]
    by_cases h : p.1 = k
    · rw [if_pos h]
      simp [alistGet]
    · rw [if_neg h]
      simp only [alistGet, List.find?_cons]
      have hb : (p.1 == k) = false := by simpa using h
      rw [hb]
      exact ih

theorem alistGet_set_ne {α : Type} (m : List (Nat × α)) (k k' : Nat) (v : α)
    (h : k' ≠ k) :
    alistGet (alistSet m k v) k' = alistGet m k' := by
  induction m with
  | nil =>
    have hb : (k == k') = false := by
      simp only [beq_eq_false_iff_ne]
      exact fun a => h a.symm
    simp [alistSet, alistGet, List.find?_cons, hb]
  | cons p rest ih =>
    simp only [alistSet]
    by_cases hp : p.1 = k
    · rw [if_pos hp]
      simp only [alistGet, List.find?_cons]
      have h1 : (k == k') = false := by simpa using fun a => h a.symm
      have h2 : (p.1 == k') = false := by
        simp only [beq_eq_false_iff_ne]
        intro hc
        exact h (by rw [← hc, hp])
      rw [h1, h2]
    · rw [if_neg hp]
      simp only [alistGet, List.find?_cons]
      cases hb : (p.1 == k') with
      | true => rfl
      | false =>
        exact ih

/-! ## Claim theorems -/

/-- C2: for every outcome of the downstream `next()` and of the apology
`ctx.reply`, `errorBoundary` propagates no exception; when `next()`
throws, exactly one generic apology reply is attempted (its own failure
being caught and logged as a second log line), and when `next()` returns
normally no apology is sent. -/
theorem errorBoundary_containment (nextOutcome replyOutcome : Except Nat Unit) :
    (errorBoundary nextOutcome replyOutcome).propagated = none ∧
    (errorBoundary nextOutcome replyOutcome).replies =
      (match nextOutcome with
       | .ok _ => []
       | .error _ => [apologyMsg]) ∧
    (errorBoundary nextOutcome replyOutcome).errorLogs =
      (match nextOutcome, replyOutcome with
       | .ok _, _ => 0
       | .error _, .ok _ => 1
       | .error _, .error _ => 2) := by
  cases nextOutcome <;> cases replyOutcome <;> simp [errorBoundary]

/-- C3 as stated is false: user id `0` is on the allow-list and
`ctx.from` is defined, yet the middleware rejects (the `!userId`
truthiness test treats id `0` like an absent user) and never calls
`next`. -/
theorem authenticationMiddleware_zero_id_cx :
    (some 0 : Option Nat).isSome = true ∧ (0 : Nat) ∈ [(0 : Nat)] ∧
    (authenticationMiddleware [0] (some 0)).calledNext = false ∧
    (authenticationMiddleware [0] (some 0)).replies = [notAuthorizedMsg] := by
  decide

/-- C3, amended: the middleware calls `next` exactly when `ctx.from` is
defined, its id is nonzero (truthy), and the allow-list contains the id;
in every other case it sends exactly the rejection reply, and in the
authorized case it sends nothing. -/
theorem authenticationMiddleware_amended (allowed : List Nat)
    (fromId : Option Nat) :
    ((authenticationMiddleware allowed fromId).calledNext = true ↔
      ∃ uid, fromId = some uid ∧ uid ≠ 0 ∧ uid ∈ allowed) ∧
    (authenticationMiddleware allowed fromId).replies =
      (if (authenticationMiddleware allowed fromId).calledNext then []
       else [notAuthorizedMsg]) := by
  cases fromId with
  | none => simp [authenticationMiddleware]
  | some uid =>
    by_cases h0 : uid = 0
    · subst h0
      simp [authenticationMiddleware]
    · by_cases hm : uid ∈ allowed
      · simp [authenticationMiddleware, h0, hm]
      · simp [authenticationMiddleware, h0, hm]

/-- C8: the `async` calc handler and the promise-returning variant are
extensionally equal: the same match yields the same reply text. -/
theorem calc_variants_agree (m : Option String) :
    handleCalcCommand m = handleCalcCommandPromise m := rfl

/-- C5: in both `/calc` with operator `/` and `/divide`, a parsed second
operand equal to `0` yields the cannot-divide-by-zero reply (and hence
never the formatted quotient reply): the division is guarded. -/
theorem divide_by_zero_guard :
    (∀ (s t1 t2 : String) (n1 : ℚ),
      wsTokens s = [t1, "/", t2] → jsParseFloat t1 = some n1 →
      jsParseFloat t2 = some 0 →
      handleCalcCommand (some s) = "Cannot divide by zero.") ∧
    (∀ (s t1 t2 : String) (n1 : ℚ),
      wsTokens s = [t1, t2] → jsParseFloat t1 = some n1 →
      jsParseFloat t2 = some 0 →
      handleDivideCommand (some s) = "Error: Cannot divide by zero.") := by
  constructor
  · intro s t1 t2 n1 htoks h1 h2
    simp [handleCalcCommand, htoks, h1, h2]
  · intro s t1 t2 n1 htoks h1 h2
    simp [handleDivideCommand, htoks, h1, h2]

/-- Witness for C5 at `/calc 8 / 0` and `/divide 8 0`. -/
theorem divide_by_zero_guard_witness :
    handleCalcCommand (some "8 / 0") = "Cannot divide by zero." ∧
    handleDivideCommand (some "8 0") = "Error: Cannot divide by zero." :=
  ⟨divide_by_zero_guard.1 "8 / 0" "8" "0" 8 (by decide)
      (by with_unfolding_all decide) (by with_unfolding_all decide),
   divide_by_zero_guard.2 "8 0" "8" "0" 8 (by decide)
      (by with_unfolding_all decide) (by with_unfolding_all decide)⟩

/-- C9: with a match that trims to a non-empty note, the `/note` handler
appends exactly that note at the end of `session.notes`, leaves
`session.visits` (and the earlier notes) unchanged, and reports the new
length; with an absent or whitespace-only match it leaves the session
untouched and sends only the usage message. -/
theorem note_handler_frame :
    (∀ (s : SessionData) (m : Option String) (t : String),
      m.map jsTrim = some t → t ≠ "" →
      (handleNoteSession m s).1.notes = s.notes ++ [t] ∧
      (handleNoteSession m s).1.visits = s.visits ∧
      (handleNoteSession m s).2 =
        "Stored note #" ++ toString (s.notes.length + 1) ++ ".") ∧
    (∀ (s : SessionData) (m : Option String),
      m = none ∨ m.map jsTrim = some "" →
      handleNoteSession m s = (s, noteUsageMsg)) := by
  constructor
  · intro s m t hm ht
    simp [handleNoteSession, hm, ht]
  · intro s m hm
    rcases hm with hm | hm
    · subst hm
      simp [handleNoteSession]
    · simp [handleNoteSession, hm]

/-- C4 fails as stated: `/calc 5 / 0` has three tokens, both operands
numeric and a supported operator, so the claim's final clause promises
the formatted result line, but the reply is the cannot-divide-by-zero
message. -/
theorem handleCalcCommand_div_zero_cx :
    wsTokens "5 / 0" = ["5", "/", "0"] ∧
    jsParseFloat "5" = some 5 ∧ jsParseFloat "0" = some 0 ∧
    handleCalcCommand (some "5 / 0") = "Cannot divide by zero." ∧
    handleCalcCommand (some "5 / 0") ≠ calcResultMsg 5 "/" 0 ((5 : ℚ) / 0) := by
  refine ⟨by decide, by with_unfolding_all decide, by with_unfolding_all decide,
    by with_unfolding_all decide, by with_unfolding_all decide⟩

/-- C4, amended (the divide-by-zero early return carved out of the final
"otherwise" clause): an absent match or one that does not tokenise into
exactly three tokens yields the usage reply; a failed numeric conversion
of an outer token yields the invalid-number reply; an unsupported middle
token yields the unknown-operator reply; a supported operator yields the
formatted `<num1> <op> <num2> = <result>` line, except division by a
second operand equal to 0, which yields the cannot-divide-by-zero
reply. -/
theorem handleCalcCommand_amended :
    handleCalcCommand none = calcUsage ∧
    (∀ s : String, (wsTokens s).length ≠ 3 →
      handleCalcCommand (some s) = calcUsage) ∧
    (∀ (s t1 op t2 : String), wsTokens s = [t1, op, t2] →
      (jsParseFloat t1 = none ∨ jsParseFloat t2 = none) →
      handleCalcCommand (some s) = "Both operands must be valid numbers.") ∧
    (∀ (s t1 op t2 : String) (n1 n2 : ℚ), wsTokens s = [t1, op, t2] →
      jsParseFloat t1 = some n1 → jsParseFloat t2 = some n2 →
      ¬ op ∈ (["+", "-", "*", "/"] : List String) →
      handleCalcCommand (some s) = unknownOperatorMsg op) ∧
    (∀ (s t1 t2 : String) (n1 n2 : ℚ), wsTokens s = [t1, "+", t2] →
      jsParseFloat t1 = some n1 → jsParseFloat t2 = some n2 →
      handleCalcCommand (some s) = calcResultMsg n1 "+" n2 (n1 + n2)) ∧
    (∀ (s t1 t2 : String) (n1 n2 : ℚ), wsTokens s = [t1, "-", t2] →
      jsParseFloat t1 = some n1 → jsParseFloat t2 = some n2 →
      handleCalcCommand (some s) = calcResultMsg n1 "-" n2 (n1 - n2)) ∧
    (∀ (s t1 t2 : String) (n1 n2 : ℚ), wsTokens s = [t1, "*", t2] →
      jsParseFloat t1 = some n1 → jsParseFloat t2 = some n2 →
      handleCalcCommand (some s) = calcResultMsg n1 "*" n2 (n1 * n2)) ∧
    (∀ (s t1 t2 : String) (n1 n2 : ℚ), wsTokens s = [t1, "/", t2] →
      jsParseFloat t1 = some n1 → jsParseFloat t2 = some n2 → n2 ≠ 0 →
      handleCalcCommand (some s) = calcResultMsg n1 "/" n2 (n1 / n2)) ∧
    (∀ (s t1 t2 : String) (n1 : ℚ), wsTokens s = [t1, "/", t2] →
      jsParseFloat t1 = some n1 → jsParseFloat t2 = some 0 →
      handleCalcCommand (some s) = "Cannot divide by zero.") := by
  refine ⟨rfl, ?_, ?_, ?_, ?_, ?_, ?_, ?_, ?_⟩
  · intro s hlen
    cases hl : wsTokens s with
    | nil => simp only [handleCalcCommand, Option.map_some', hl]
    | cons a l1 =>
      cases l1 with
      | nil => simp only [handleCalcCommand, Option.map_some', hl]
      | cons b l2 =>
        cases l2 with
        | nil => simp only [handleCalcCommand, Option.map_some', hl]
        | cons c l3 =>
          cases l3 with
          | nil =>
            rw [hl] at hlen
            exact absurd rfl hlen
          | cons d l4 => simp only [handleCalcCommand, Option.map_some', hl]
  · intro s t1 op t2 htoks hbad
    rcases hbad with hb | hb
    · simp only [handleCalcCommand, Option.map_some', htoks, hb]
    · cases hp : jsParseFloat t1 with
      | none => simp only [handleCalcCommand, Option.map_some', htoks, hp]
      | some n1 => simp only [handleCalcCommand, Option.map_some', htoks, hp, hb]
  · intro s t1 op t2 n1 n2 htoks h1 h2 hop
    simp only [List.mem_cons, List.not_mem_nil, or_false, not_or] at hop
    obtain ⟨ho1, ho2, ho3, ho4⟩ := hop
    simp only [handleCalcCommand, Option.map_some', htoks, h1, h2]
  · intro s t1 t2 n1 n2 htoks h1 h2
    simp only [handleCalcCommand, Option.map_some', htoks, h1, h2]
  · intro s t1 t2 n1 n2 htoks h1 h2
    simp only [handleCalcCommand, Option.map_some', htoks, h1, h2]
  · intro s t1 t2 n1 n2 htoks h1 h2
    simp only [handleCalcCommand, Option.map_some', htoks, h1, h2]
  · intro s t1 t2 n1 n2 htoks h1 h2 hn2
    simp only [handleCalcCommand, Option.map_some', htoks, h1, h2]
    exact if_neg hn2
  · intro s t1 t2 n1 htoks h1 h2
    simp only [handleCalcCommand, Option.map_some', htoks, h1, h2]
    exact if_pos trivial

/-- Witness for C4 (amended) across the result, unknown-operator,
invalid-number and usage branches. -/
theorem handleCalcCommand_amended_witness :
    handleCalcCommand (some "5 + 3") = calcResultMsg 5 "+" 3 (5 + 3) ∧
    handleCalcCommand (some "5 ^ 3") = unknownOperatorMsg "^" ∧
    handleCalcCommand (some "a + 3") = "Both operands must be valid numbers." ∧
    handleCalcCommand (some "1 2") = calcUsage :=
  ⟨handleCalcCommand_amended.2.2.2.2.1 "5 + 3" "5" "3" 5 3 (by decide)
      (by with_unfolding_all decide) (by with_unfolding_all decide),
   handleCalcCommand_amended.2.2.2.1 "5 ^ 3" "5" "^" "3" 5 3 (by decide)
      (by with_unfolding_all decide) (by with_unfolding_all decide) (by decide),
   handleCalcCommand_amended.2.2.1 "a + 3" "a" "+" "3" (by decide)
      (Or.inl (by with_unfolding_all decide)),
   handleCalcCommand_amended.2.1 "1 2" (by decide)⟩

/-- Any retry run makes at most `maxRetries` invocations: the loop at
`attempt` with the matching fuel ends with a call count of at most
`maxRetries`. -/
theorem retryGo_calls_le (fn : Nat → CallOutcome) (maxRetries : Nat) :
    ∀ (fuel attempt : Nat) (le1 : Option JsError),
      attempt + fuel = maxRetries + 1 →
      (retryGo fn maxRetries attempt le1 fuel).calls ≤ maxRetries := by
  intro fuel
  induction fuel with
  | zero =>
    intro attempt le1 hinv
    cases le1 <;> simp [retryGo, RetryResult.calls] <;> omega
  | succ f ih =>
    intro attempt le1 hinv
    cases hfn : fn attempt with
    | ok =>
      simp only [retryGo, hfn, RetryResult.calls]
      omega
    | err e =>
      simp only [retryGo, hfn]
      by_cases hc : e.kind = JsErrorKind.http ∧ attempt < maxRetries
      · rw [if_pos hc]
        exact ih (attempt + 1) (some e) (by omega)
      · rw [if_neg hc]
        simp only [RetryResult.calls]
        omega

/-- Advancing the retry loop across a block of retryable (HTTP,
non-final) failures. -/
theorem retryGo_advance (fn : Nat → CallOutcome) (maxRetries : Nat) :
    ∀ (d attempt : Nat) (le1 : Option JsError),
      attempt + d ≤ maxRetries →
      (∀ j, attempt ≤ j → j < attempt + d →
        ∃ e, fn j = CallOutcome.err e ∧ e.kind = JsErrorKind.http) →
      ∃ le2, retryGo fn maxRetries attempt le1 (maxRetries + 1 - attempt) =
        retryGo fn maxRetries (attempt + d) le2
          (maxRetries + 1 - (attempt + d)) := by
  intro d
  induction d with
  | zero => intro attempt le1 _ _; exact ⟨le1, by simp⟩
  | succ k ih =>
    intro attempt le1 hle hpre
    obtain ⟨e, hfe, hek⟩ := hpre attempt (Nat.le_refl attempt) (by omega)
    have hfuel : maxRetries + 1 - attempt = (maxRetries - attempt) + 1 := by
      omega
    rw [hfuel]
    simp only [retryGo, hfe]
    rw [if_pos ⟨hek, by omega⟩]
    have hf2 : maxRetries - attempt = maxRetries + 1 - (attempt + 1) := by
      omega
    rw [hf2]
    obtain ⟨le2, heq⟩ := ih (attempt + 1) (some e) (by omega)
      (fun j hj1 hj2 => hpre j (by omega) (by omega))
    refine ⟨le2, ?_⟩
    rw [heq]
    have hc : attempt + 1 + k = attempt + (k + 1) := by omega
    rw [hc]

/-- C1: with `maxRetries ≥ 1`, `sendWithRetry` makes at most
`maxRetries` invocations of `fn`; and when attempts `1, …, k-1` all fail
with `HttpError`s (`1 ≤ k ≤ maxRetries`): a success at attempt `k` ends
the run successfully after exactly `k` invocations, a non-`HttpError`
failure at attempt `k` is rethrown immediately after exactly `k`
invocations, and a failure at the last allowed attempt
(`k = maxRetries`) is rethrown after exactly `k` invocations. -/
theorem sendWithRetry_spec (fn : Nat → CallOutcome) (maxRetries : Nat)
    (hmr : 1 ≤ maxRetries) :
    (sendWithRetry fn maxRetries).calls ≤ maxRetries ∧
    (∀ k, 1 ≤ k → k ≤ maxRetries →
      (∀ j, 1 ≤ j → j < k →
        ∃ e, fn j = CallOutcome.err e ∧ e.kind = JsErrorKind.http) →
      ((fn k = CallOutcome.ok →
          sendWithRetry fn maxRetries = RetryResult.success k) ∧
       (∀ e, fn k = CallOutcome.err e → e.kind ≠ JsErrorKind.http →
          sendWithRetry fn maxRetries = RetryResult.thrown e k) ∧
       (∀ e, fn k = CallOutcome.err e → k = maxRetries →
          sendWithRetry fn maxRetries = RetryResult.thrown e k))) := by
  constructor
  · exact retryGo_calls_le fn maxRetries maxRetries 1 none (by omega)
  · intro k hk1 hk2 hpre
    obtain ⟨le2, heq⟩ := retryGo_advance fn maxRetries (k - 1) 1 none
      (by omega) (fun j hj1 hj2 => hpre j hj1 (by omega))
    have h1k : 1 + (k - 1) = k := by omega
    rw [h1k] at heq
    have hstart : maxRetries + 1 - 1 = maxRetries := by omega
    rw [hstart] at heq
    have hfuel : maxRetries + 1 - k = (maxRetries - k) + 1 := by omega
    rw [hfuel] at heq
    have hsend : sendWithRetry fn maxRetries =
        retryGo fn maxRetries k le2 ((maxRetries - k) + 1) := heq
    refine ⟨?_, ?_, ?_⟩
    · intro hok
      rw [hsend]
      simp [retryGo, hok]
    · intro e hfe hne
      rw [hsend]
      simp only [retryGo, hfe]
      rw [if_neg (fun hcc => hne hcc.1)]
    · intro e hfe hkm
      rw [hsend]
      simp only [retryGo, hfe]
      rw [if_neg (fun hcc => absurd hcc.2 (by omega))]

/-- Witness for C1: two HTTP failures then a success, within
`maxRetries = 3`. -/
theorem sendWithRetry_spec_witness :
    (sendWithRetry
        (fun j => if j = 3 then CallOutcome.ok
          else CallOutcome.err ⟨JsErrorKind.http, 7⟩) 3).calls ≤ 3 ∧
    sendWithRetry
        (fun j => if j = 3 then CallOutcome.ok
          else CallOutcome.err ⟨JsErrorKind.http, 7⟩) 3 =
      RetryResult.success 3 := by
  have h := sendWithRetry_spec
    (fun j => if j = 3 then CallOutcome.ok
      else CallOutcome.err ⟨JsErrorKind.http, 7⟩) 3 (by omega)
  refine ⟨h.1, ?_⟩
  refine (h.2 3 (by omega) (by omega) ?_).1 (by decide)
  intro j hj1 hj2
  refine ⟨⟨JsErrorKind.http, 7⟩, ?_, rfl⟩
  have hj3 : j ≠ 3 := by omega
  simp [hj3]

/-- The counter map after a batch of updates, over an arbitrary starting
map: each user's entry grows by the number of updates they sent. -/
theorem statefulFold_count (l : List MsgUpdate) :
    ∀ (m : List (Nat × Nat)) (uid : Nat), uid ≠ 0 →
      (alistGet (l.foldl statefulStep m) uid).getD 0 =
        (alistGet m uid).getD 0 +
          (l.filter (fun u => u.fromId == some uid)).length := by
  induction l with
  | nil => intro m uid _; simp
  | cons u rest ih =>
    intro m uid h
    simp only [List.foldl_cons, List.filter_cons]
    cases hf : u.fromId with
    | none =>
      have hstep : statefulStep m u = m := by simp [statefulStep, hf]
      rw [hstep, if_neg (by simp)]
      exact ih m uid h
    | some v =>
      by_cases hv0 : v = 0
      · subst hv0
        have hstep : statefulStep m u = m := by simp [statefulStep, hf]
        have hcond : ¬ (((some 0 : Option Nat) == some uid) = true) := by
          simp only [beq_iff_eq, Option.some.injEq]
          omega
        rw [hstep, if_neg hcond]
        exact ih m uid h
      · have hstep : statefulStep m u =
            alistSet m v ((alistGet m v).getD 0 + 1) := by
          simp [statefulStep, hf, hv0]
        by_cases hvu : v = uid
        · subst hvu
          rw [hstep, if_pos (by simp), ih _ v h, alistGet_set_self]
          simp only [Option.getD_some, List.length_cons]
          omega
        · have hcond : ¬ (((some v : Option Nat) == some uid) = true) := by
            simp only [beq_iff_eq, Option.some.injEq]
            omega
          rw [hstep, if_neg hcond, ih _ uid h,
            alistGet_set_ne _ _ _ _ (fun a => hvu a.symm)]

/-- The counting middleware never reads the chat id. -/
theorem statefulFold_chat_irrel (l : List MsgUpdate) :
    ∀ m : List (Nat × Nat),
      (l.map (fun u => { u with chatId := 0 })).foldl statefulStep m =
        l.foldl statefulStep m := by
  induction l with
  | nil => intro m; rfl
  | cons u rest ih =>
    intro m
    simp only [List.map_cons, List.foldl_cons]
    rw [show statefulStep m { u with chatId := 0 } = statefulStep m u from rfl]
    exact ih _

/-- C6 as stated is false: two message updates delivered in the same
chat (id 5) by different users do not share a counter entry, and the
`/mycount` reply for the first sender reports 1, not the per-chat total
2. -/
theorem statefulFeature_per_chat_cx :
    (([⟨5, some 1⟩, ⟨5, some 2⟩] : List MsgUpdate).map MsgUpdate.chatId =
      [5, 5]) ∧
    myCountReply (processUpdates [⟨5, some 1⟩, ⟨5, some 2⟩]) (some 1) =
      "You've sent 1 messages." ∧
    ("You've sent 1 messages." : String) ≠ "You've sent 2 messages." := by
  decide

/-- C6, amended: the process-local map is a per-user message counter:
after any batch of message updates, the entry of each user with a truthy
id holds the number of updates that user sent (in whatever chats), the
`/mycount` reply reports that per-user total, and the chat ids of the
updates are irrelevant to the map. -/
theorem statefulFeature_per_user_count (l : List MsgUpdate) (uid : Nat)
    (h : uid ≠ 0) :
    (alistGet (processUpdates l) uid).getD 0 =
      (l.filter (fun u => u.fromId == some uid)).length ∧
    myCountReply (processUpdates l) (some uid) =
      "You've sent " ++
        toString (l.filter (fun u => u.fromId == some uid)).length ++
        " messages." ∧
    processUpdates (l.map (fun u => { u with chatId := 0 })) =
      processUpdates l := by
  have hz : (alistGet ([] : List (Nat × Nat)) uid).getD 0 = 0 := rfl
  have h1 : (alistGet (processUpdates l) uid).getD 0 =
      (l.filter (fun u => u.fromId == some uid)).length := by
    simpa [processUpdates, hz] using statefulFold_count l [] uid h
  refine ⟨h1, ?_, ?_⟩
  · simp [myCountReply, h, h1]
  · simpa [processUpdates] using statefulFold_chat_irrel l []

/-- Witness for C6 (amended) at three updates across two chats. -/
theorem statefulFeature_per_user_count_witness :
    (1 : Nat) ≠ 0 ∧
    myCountReply (processUpdates [⟨5, some 1⟩, ⟨7, some 1⟩, ⟨5, some 2⟩])
        (some 1) =
      "You've sent " ++
        toString (([⟨5, some 1⟩, ⟨7, some 1⟩, ⟨5, some 2⟩] :
          List MsgUpdate).filter (fun u => u.fromId == some 1)).length ++
        " messages." :=
  ⟨by decide,
   (statefulFeature_per_user_count [⟨5, some 1⟩, ⟨7, some 1⟩, ⟨5, some 2⟩]
      1 (by decide)).2.1⟩

/-- The `/start` handler replies with the text determined by the new
visit count. -/
theorem handleStartSession_reply (s : SessionData) :
    (handleStartSession s).2 = startReplyText (s.visits + 1) := rfl

/-- `foldStarts` steps through its list head first. -/
theorem foldStarts_cons (st : List (Nat × SessionData)) (c : Nat)
    (l : List Nat) :
    foldStarts st (c :: l) = foldStarts (processStart st c).1 l := rfl

/-- Replies of a concatenated run of `/start` commands. -/
theorem runStarts_append (l1 : List Nat) :
    ∀ (st : List (Nat × SessionData)) (l2 : List Nat),
      runStarts st (l1 ++ l2) =
        runStarts st l1 ++ runStarts (foldStarts st l1) l2 := by
  induction l1 with
  | nil => intro st l2; simp [runStarts, foldStarts]
  | cons c rest ih =>
    intro st l2
    simp only [List.cons_append, runStarts]
    have ha : List.append rest l2 = rest ++ l2 := rfl
    rw [ha, ih]
    rfl

/-- After a run of `/start` commands, a chat's visit counter has grown
by the number of `/start`s processed for that chat. -/
theorem foldStarts_visits (l : List Nat) :
    ∀ (st : List (Nat × SessionData)) (c : Nat),
      (storeGet (foldStarts st l) c).visits =
        (storeGet st c).visits + l.count c := by
  induction l with
  | nil => intro st c; simp [foldStarts]
  | cons d rest ih =>
    intro st c
    rw [foldStarts_cons, ih, List.count_cons]
    by_cases hdc : d = c
    · subst hdc
      have hs : storeGet (processStart st d).1 d =
          (handleStartSession (storeGet st d)).1 := by
        simp [processStart, storeGet, alistGet_set_self]
      rw [hs]
      simp [handleStartSession]
      omega
    · have hs : storeGet (processStart st d).1 c = storeGet st c := by
        simp [processStart, storeGet,
          alistGet_set_ne _ _ _ _ (fun a => hdc a.symm)]
      rw [hs]
      have hb : (d == c) = false := by simpa using hdc
      rw [hb]
      simp

/-- C7: the session record is created with the defaults `visits = 0` and
`notes = []`; in any run of `/start` commands the one processed for a
chat after `k` earlier `/start`s for that chat replies with
`startReplyText (k + 1)`, so the first `/start` of a chat replies with
the text containing "This is your first session." and the n-th (n ≥ 2)
reports the count n. -/
theorem session_start_spec :
    initialSession.visits = 0 ∧ initialSession.notes = [] ∧
    (∀ (pre : List Nat) (c : Nat),
      (runStarts [] (pre ++ [c])).getLast? =
        some (startReplyText (pre.count c + 1))) ∧
    startReplyText 1 =
      "Session middleware example ready.\nThis is your first session." ∧
    (∀ n, 2 ≤ n → startReplyText n =
      "Session middleware example ready.\nYou have started the bot " ++
        toString n ++ " times.") := by
  refine ⟨rfl, rfl, ?_, rfl, ?_⟩
  · intro pre c
    rw [runStarts_append]
    have h1 : runStarts (foldStarts [] pre) [c] =
        [(processStart (foldStarts [] pre) c).2] := rfl
    rw [h1, List.getLast?_concat]
    have h2 : (processStart (foldStarts [] pre) c).2 =
        (handleStartSession (storeGet (foldStarts [] pre) c)).2 := rfl
    have h3 : (storeGet (foldStarts [] pre) c).visits = pre.count c := by
      rw [foldStarts_visits]
      simp [storeGet, alistGet, initialSession]
    rw [h2, handleStartSession_reply, h3]
  · intro n hn
    have h1 : n ≠ 1 := by omega
    rw [startReplyText, if_neg h1,
      show ("Session middleware example ready.\nYou have started the bot " :
        String) =
        "Session middleware example ready.\n" ++ "You have started the bot "
        from rfl,
      String.append_assoc, String.append_assoc, String.append_assoc]

/-- Witness for C7: the `/start` for chat 7 after runs `[7, 8]`, and the
second-visit reply text. -/
theorem session_start_spec_witness :
    (runStarts [] ([7, 8] ++ [7])).getLast? =
      some (startReplyText (([7, 8] : List Nat).count 7 + 1)) ∧
    (2 : Nat) ≤ 2 ∧
    startReplyText 2 =
      "Session middleware example ready.\nYou have started the bot " ++
        toString 2 ++ " times." :=
  ⟨session_start_spec.2.2.1 [7, 8] 7, by decide,
   session_start_spec.2.2.2.2 2 (by decide)⟩

/-- Tokenising past a leading whitespace-free block accumulates it. -/
theorem splitWsAux_append_tok (t : List Char) :
    ∀ (rest acc : List Char), (∀ c ∈ t, isWsChar c = false) →
      splitWsAux (t ++ rest) acc = splitWsAux rest (t.reverse ++ acc) := by
  induction t with
  | nil => intro rest acc _; simp
  | cons c t2 ih =>
    intro rest acc hws
    have hc : isWsChar c = false := hws c (List.mem_cons_self c t2)
    simp only [List.cons_append, splitWsAux, hc, Bool.false_eq_true, if_false]
    rw [show t2.append rest = t2 ++ rest from rfl]
    rw [ih rest (c :: acc) (fun d hd => hws d (List.mem_cons_of_mem c hd))]
    simp [List.reverse_cons, List.append_assoc]

/-- `trim` of a string beginning with a whitespace-free non-empty token
keeps the token and right-trims the remainder. -/
theorem trimChars_tok_append (t rest : List Char) (ht : t ≠ [])
    (hws : ∀ c ∈ t, isWsChar c = false) :
    trimChars (t ++ rest) = t ++ trimRightChars rest := by
  unfold trimChars trimRightChars
  have hfront : (t ++ rest).dropWhile isWsChar = t ++ rest := by
    cases t with
    | nil => exact absurd rfl ht
    | cons c t2 =>
      have hc := hws c (List.mem_cons_self c t2)
      simp [List.dropWhile_cons, hc]
  rw [hfront, List.reverse_append]
  have hdw : (rest.reverse ++ t.reverse).dropWhile isWsChar =
      rest.reverse.dropWhile isWsChar ++ t.reverse := by
    rw [List.dropWhile_append]
    by_cases he : (rest.reverse.dropWhile isWsChar).isEmpty
    · rw [if_pos he]
      have hback : t.reverse.dropWhile isWsChar = t.reverse := by
        cases hrv : t.reverse with
        | nil => simp
        | cons c t2 =>
          have hct : c ∈ t := by
            have hm : c ∈ t.reverse := by
              rw [hrv]
              exact List.mem_cons_self c t2
            simpa using hm
          have hc := hws c hct
          simp [List.dropWhile_cons, hc]
      have hnil : rest.reverse.dropWhile isWsChar = [] := by
        simpa using he
      rw [hback, hnil, List.nil_append]
    · rw [if_neg he]
  rw [hdw, List.reverse_append, List.reverse_reverse]

/-- Right-trimming preserves "empty or starts with whitespace". -/
theorem startsWsOrEmpty_trimRight (rest : List Char)
    (h : startsWsOrEmpty rest = true) :
    startsWsOrEmpty (trimRightChars rest) = true := by
  cases rest with
  | nil => simp [trimRightChars, startsWsOrEmpty]
  | cons c rs =>
    have hc : isWsChar c = true := by simpa [startsWsOrEmpty] using h
    unfold trimRightChars
    rw [List.reverse_cons, List.dropWhile_append]
    by_cases he : (rs.reverse.dropWhile isWsChar).isEmpty
    · rw [if_pos he]
      simp [List.dropWhile_cons, hc, startsWsOrEmpty]
    · rw [if_neg he, List.reverse_append]
      simp [startsWsOrEmpty, hc]

/-- The head token of `match.trim().split(/\s+/)` for a match that
begins with a whitespace-free non-empty token. -/
theorem wsTokens_first (t rest : List Char) (ht : t ≠ [])
    (hws : ∀ c ∈ t, isWsChar c = false)
    (hrest : startsWsOrEmpty rest = true) :
    wsTokens (String.mk (t ++ rest)) =
      String.mk t :: restToks (trimRightChars rest) := by
  unfold wsTokens jsTrim jsSplitWs
  rw [show (String.mk (t ++ rest)).data = t ++ rest from rfl]
  rw [trimChars_tok_append t rest ht hws]
  have hne : String.mk (t ++ trimRightChars rest) ≠ "" := by
    intro hcon
    have hdata : t ++ trimRightChars rest = [] := congrArg String.data hcon
    cases t with
    | nil => exact ht rfl
    | cons a b => simp at hdata
  rw [if_neg hne]
  rw [show (String.mk (t ++ trimRightChars rest)).data =
    t ++ trimRightChars rest from rfl]
  rw [splitWsAux_append_tok t _ [] hws]
  have htr : t.reverse ≠ [] := by simpa using ht
  cases htrim : trimRightChars rest with
  | nil =>
    simp only [splitWsAux, List.append_nil, restToks]
    rw [if_neg (by simpa using htr), List.reverse_reverse]
  | cons c rs =>
    have hc : isWsChar c = true := by
      have hsw := startsWsOrEmpty_trimRight rest hrest
      rw [htrim] at hsw
      simpa [startsWsOrEmpty] using hsw
    simp only [splitWsAux, List.append_nil, restToks, hc, if_true]
    rw [if_neg (by simpa using htr), List.reverse_reverse]

/-- The admin reply only depends on the lowercased first token. -/
theorem handleAdminCommand_congr (m m' : Option String)
    (h : adminSubcommand m = adminSubcommand m') :
    handleAdminCommand m = handleAdminCommand m' := by
  unfold handleAdminCommand
  rw [h]

/-- C10: the admin dispatch is case-insensitive in the first token —
replacing it by any same-lowercase variant (same remainder) leaves the
reply unchanged; an absent first token (`args[0]` undefined) is treated
exactly like the token `help`; and a present first token whose lowercase
form is outside start/stop/status/help draws the unknown-subcommand
reply (which interpolates the lowercased token). -/
theorem handleAdminCommand_dispatch_spec :
    (∀ (t t' rest : List Char),
      t ≠ [] → t' ≠ [] →
      (∀ c ∈ t, isWsChar c = false) → (∀ c ∈ t', isWsChar c = false) →
      lowerStr (String.mk t) = lowerStr (String.mk t') →
      startsWsOrEmpty rest = true →
      handleAdminCommand (some (String.mk (t ++ rest))) =
        handleAdminCommand (some (String.mk (t' ++ rest)))) ∧
    (∀ m : Option String, adminSubcommand m = none →
      handleAdminCommand m = handleAdminCommand (some "help")) ∧
    (∀ (m : Option String) (t : String),
      ((m.map wsTokens).getD []).head? = some t →
      ¬ lowerStr t ∈ (["start", "stop", "status", "help"] : List String) →
      handleAdminCommand m = unknownSubcommandMsg (lowerStr t)) := by
  refine ⟨?_, ?_, ?_⟩
  · intro t t' rest ht ht' hw hw' hl hr
    apply handleAdminCommand_congr
    unfold adminSubcommand
    rw [show ((some (String.mk (t ++ rest))).map wsTokens).getD [] =
      wsTokens (String.mk (t ++ rest)) from rfl]
    rw [show ((some (String.mk (t' ++ rest))).map wsTokens).getD [] =
      wsTokens (String.mk (t' ++ rest)) from rfl]
    rw [wsTokens_first t rest ht hw hr, wsTokens_first t' rest ht' hw' hr]
    simp [hl]
  · intro m hm
    have h2 : handleAdminCommand (some "help") = adminHelpMsg := by decide
    rw [h2]
    unfold handleAdminCommand
    rw [hm]
  · intro m t hhead hmem
    simp only [List.mem_cons, List.not_mem_nil, or_false, not_or] at hmem
    obtain ⟨h1, h2, h3, h4⟩ := hmem
    simp only [handleAdminCommand, adminSubcommand, hhead, Option.map_some']

/-- Witness for C10: `StArT now` vs `start now`, an undefined match, and
the unknown token `Foo`. -/
theorem handleAdminCommand_dispatch_spec_witness :
    handleAdminCommand (some (String.mk ("StArT".data ++ " now".data))) =
      handleAdminCommand (some (String.mk ("start".data ++ " now".data))) ∧
    handleAdminCommand none = handleAdminCommand (some "help") ∧
    handleAdminCommand (some "Foo") = unknownSubcommandMsg (lowerStr "Foo") :=
  ⟨handleAdminCommand_dispatch_spec.1 "StArT".data "start".data " now".data
      (by decide) (by decide) (by decide) (by decide) (by decide) (by decide),
   handleAdminCommand_dispatch_spec.2.1 none (by decide),
   handleAdminCommand_dispatch_spec.2.2 (some "Foo") "Foo" (by decide)
      (by decide)⟩

/-- Witness for C9: storing `" milk "` on a session with one prior note,
and a whitespace-only match leaving the session unchanged. -/
theorem note_handler_frame_witness :
    ((handleNoteSession (some " milk ") ⟨2, ["a"]⟩).1.notes = ["a"] ++ ["milk"] ∧
      (handleNoteSession (some " milk ") ⟨2, ["a"]⟩).1.visits = 2 ∧
      (handleNoteSession (some " milk ") ⟨2, ["a"]⟩).2 =
        "Stored note #" ++ toString (["a"].length + 1) ++ ".") ∧
    handleNoteSession (some "  ") ⟨2, ["a"]⟩ = (⟨2, ["a"]⟩, noteUsageMsg) :=
  ⟨note_handler_frame.1 ⟨2, ["a"]⟩ (some " milk ") "milk" (by decide) (by decide),
   note_handler_frame.2 ⟨2, ["a"]⟩ (some "  ") (Or.inr (by decide))⟩

end GrammySkills
